import Mathlib

/-!
Shallow embedding of the Kinetic protocol codec (`src/kinetic/Kinetic.js`):
byte-buffer primitives, the protobuf data model (modelled from the spec, the
schema file is not part of the sources), the stateful `Kinetic` instance with
its builders, `send` framing and the `parse` validation pipeline, together
with theorems settling the specification claims.

Byte buffers are `List Nat`, each element standing for one byte (`< 256` on
every buffer produced by the code; hypotheses carry the bound where it
matters).  JavaScript exceptions (out-of-range buffer reads, property access
on `undefined`) are modelled by `Except Unit`: `.error ()` is a thrown
exception, `.ok` a normal return.
-/

namespace Kinetic

abbrev Bytes := List Nat

/-- Interpretation of a stored byte as a signed 8-bit integer, as done by
Node's `Buffer.readInt8`. -/
def toSigned8 (b : Nat) : Int :=
  if b % 256 < 128 then (b % 256 : Int) else (b % 256 : Int) - 256

/-- Node `Buffer.readInt8(offset)`: throws (`none`) when the offset is out of
range, otherwise the signed byte. -/
def readInt8 (data : Bytes) (off : Nat) : Option Int :=
  match data[off]? with
  | some b => some (toSigned8 b)
  | none => none

/-- Node `Buffer.readInt32BE(offset)`: throws (`none`) unless four bytes are
available, otherwise the signed big-endian 32-bit value. -/
def readInt32BE (data : Bytes) (off : Nat) : Option Int :=
  match data[off]?, data[off+1]?, data[off+2]?, data[off+3]? with
  | some b0, some b1, some b2, some b3 =>
      let v : Nat := (b0 % 256) * 2^24 + (b1 % 256) * 2^16 + (b2 % 256) * 2^8 + b3 % 256
      some (if v < 2^31 then (v : Int) else (v : Int) - 2^32)
  | _, _, _, _ => none

/-- The four big-endian bytes written by `Buffer.writeInt32BE` for a
non-negative value; values `2^31 ≤ n` would throw in Node, so every theorem
about code writing a length carries the corresponding bound. -/
def writeInt32BE4 (n : Nat) : Bytes :=
  [n / 2^24 % 256, n / 2^16 % 256, n / 2^8 % 256, n % 256]

/-- Resolution of one `Buffer.slice` index: negative indices count from the
end and both directions clamp to the buffer. -/
def clampIndex (len i : Int) : Int :=
  if i < 0 then max (len + i) 0 else min i len

/-- Node `Buffer.slice(start, end)`: a crossed range yields the empty
buffer.  Never throws and never reads past the end. -/
def bufSlice (data : Bytes) (start finish : Int) : Bytes :=
  let s : Int := clampIndex data.length start
  let e : Int := clampIndex data.length finish
  if e ≤ s then [] else (data.take e.toNat).drop s.toNat

/-! ## Data model

Modelled from the spec: the protobuf schema (`kinetic.proto`) consumed
through the external structured-encoding service is not among the sources;
the `Message` (envelope) and `Command` shapes below follow the spec's data
model section.  Enum-valued fields carry their wire codes. -/

structure Header where
  messageType : Nat
  connectionID : Nat
  sequence : Nat
  clusterVersion : Nat
  ackSequence : Nat
deriving DecidableEq

structure KeyValue where
  key : Bytes
  dbVersion : Bytes
  newVersion : Bytes
  synchronization : Nat
deriving DecidableEq

structure GetLogBody where
  types : List Nat
  messages : Bytes
deriving DecidableEq

structure SetupBody where
  newClusterVersion : Nat
deriving DecidableEq

structure Body where
  keyValue : KeyValue
  getLog : GetLogBody
  setup : SetupBody
deriving DecidableEq

structure Status where
  code : Int
  detailedMessage : Bytes
deriving DecidableEq

structure Command where
  header : Header
  body : Body
  status : Status
deriving DecidableEq

structure HmacAuth where
  identity : Nat
  hmac : Option Bytes
deriving DecidableEq

structure Message where
  authType : Nat
  hmacAuth : Option HmacAuth
  commandBytes : Bytes
deriving DecidableEq

def emptyHeader : Header := ⟨0, 0, 0, 0, 0⟩
def emptyKeyValue : KeyValue := ⟨[], [], [], 0⟩
def emptyGetLog : GetLogBody := ⟨[], []⟩
def emptySetup : SetupBody := ⟨0⟩
def emptyBody : Body := ⟨emptyKeyValue, emptyGetLog, emptySetup⟩
def emptyStatus : Status := ⟨0, []⟩

/-! ## Structured-encoding service

Modelled from the spec: the external encode/decode service (protobufjs in
the source) is given a concrete executable realisation: a self-delimiting
encoding of each schema type together with its parser, satisfying
`decode (encode x) = ok x`.  A decode fault may carry a partially decoded
structure (`fault (some a)`, protobufjs `e.decoded`) or nothing
(`fault none`). -/

inductive DecodeResult (α : Type) where
  | ok (a : α)
  | fault (decoded : Option α)
deriving DecidableEq

/-- Self-delimiting unary encoding of a natural number. -/
def natUn (n : Nat) : Bytes := List.replicate n 1 ++ [0]

def pNat : Bytes → Option (Nat × Bytes)
  | 0 :: r => some (0, r)
  | 1 :: r =>
      match pNat r with
      | some (n, r') => some (n + 1, r')
      | none => none
  | _ => none

def encBytes (b : Bytes) : Bytes := natUn b.length ++ b

def pBytes (s : Bytes) : Option (Bytes × Bytes) :=
  match pNat s with
  | some (n, r) => if n ≤ r.length then some (r.take n, r.drop n) else none
  | none => none

def encInt (i : Int) : Bytes :=
  if i < 0 then 1 :: natUn (-i).toNat else 0 :: natUn i.toNat

def pInt (s : Bytes) : Option (Int × Bytes) :=
  match s with
  | 0 :: r => (pNat r).map (fun p => ((p.1 : Int), p.2))
  | 1 :: r => (pNat r).map (fun p => (-(p.1 : Int), p.2))
  | _ => none

def encOptBytes : Option Bytes → Bytes
  | none => [0]
  | some b => 1 :: encBytes b

def pOptBytes (s : Bytes) : Option (Option Bytes × Bytes) :=
  match s with
  | 0 :: r => some (none, r)
  | 1 :: r => (pBytes r).map (fun p => (some p.1, p.2))
  | _ => none

def encNatSeq : List Nat → Bytes
  | [] => []
  | x :: xs => natUn x ++ encNatSeq xs

def encNatList (l : List Nat) : Bytes := natUn l.length ++ encNatSeq l

def pNatSeq : Nat → Bytes → Option (List Nat × Bytes)
  | 0, s => some ([], s)
  | n + 1, s => do
      let (x, s1) ← pNat s
      let (xs, s2) ← pNatSeq n s1
      return (x :: xs, s2)

def pNatList (s : Bytes) : Option (List Nat × Bytes) := do
  let (n, s1) ← pNat s
  pNatSeq n s1

def encHeader (h : Header) : Bytes :=
  natUn h.messageType ++ natUn h.connectionID ++ natUn h.sequence ++
    natUn h.clusterVersion ++ natUn h.ackSequence

def pHeader (s : Bytes) : Option (Header × Bytes) := do
  let (messageType, s1) ← pNat s
  let (connectionID, s2) ← pNat s1
  let (sequence, s3) ← pNat s2
  let (clusterVersion, s4) ← pNat s3
  let (ackSequence, s5) ← pNat s4
  return (⟨messageType, connectionID, sequence, clusterVersion, ackSequence⟩, s5)

def encKeyValue (kv : KeyValue) : Bytes :=
  encBytes kv.key ++ encBytes kv.dbVersion ++ encBytes kv.newVersion ++
    natUn kv.synchronization

def pKeyValue (s : Bytes) : Option (KeyValue × Bytes) := do
  let (key, s1) ← pBytes s
  let (dbVersion, s2) ← pBytes s1
  let (newVersion, s3) ← pBytes s2
  let (synchronization, s4) ← pNat s3
  return (⟨key, dbVersion, newVersion, synchronization⟩, s4)

def encGetLog (g : GetLogBody) : Bytes := encNatList g.types ++ encBytes g.messages

def pGetLog (s : Bytes) : Option (GetLogBody × Bytes) := do
  let (types, s1) ← pNatList s
  let (messages, s2) ← pBytes s1
  return (⟨types, messages⟩, s2)

def encSetup (st : SetupBody) : Bytes := natUn st.newClusterVersion

def pSetup (s : Bytes) : Option (SetupBody × Bytes) := do
  let (newClusterVersion, s1) ← pNat s
  return (⟨newClusterVersion⟩, s1)

def encBody (b : Body) : Bytes :=
  encKeyValue b.keyValue ++ encGetLog b.getLog ++ encSetup b.setup

def pBody (s : Bytes) : Option (Body × Bytes) := do
  let (keyValue, s1) ← pKeyValue s
  let (getLog, s2) ← pGetLog s1
  let (setup, s3) ← pSetup s2
  return (⟨keyValue, getLog, setup⟩, s3)

def encStatus (st : Status) : Bytes := encInt st.code ++ encBytes st.detailedMessage

def pStatus (s : Bytes) : Option (Status × Bytes) := do
  let (code, s1) ← pInt s
  let (detailedMessage, s2) ← pBytes s1
  return (⟨code, detailedMessage⟩, s2)

def encodeCommand (c : Command) : Bytes :=
  encHeader c.header ++ encBody c.body ++ encStatus c.status

def pCommand (s : Bytes) : Option (Command × Bytes) := do
  let (header, s1) ← pHeader s
  let (body, s2) ← pBody s1
  let (status, s3) ← pStatus s2
  return (⟨header, body, status⟩, s3)

def encHmacAuth (h : HmacAuth) : Bytes := natUn h.identity ++ encOptBytes h.hmac

def pHmacAuth (s : Bytes) : Option (HmacAuth × Bytes) := do
  let (identity, s1) ← pNat s
  let (hmac, s2) ← pOptBytes s1
  return (⟨identity, hmac⟩, s2)

def encOptHmacAuth : Option HmacAuth → Bytes
  | none => [0]
  | some h => 1 :: encHmacAuth h

def pOptHmacAuth (s : Bytes) : Option (Option HmacAuth × Bytes) :=
  match s with
  | 0 :: r => some (none, r)
  | 1 :: r => (pHmacAuth r).map (fun p => (some p.1, p.2))
  | _ => none

def encodeMessage (m : Message) : Bytes :=
  natUn m.authType ++ encOptHmacAuth m.hmacAuth ++ encBytes m.commandBytes

def pMessage (s : Bytes) : Option (Message × Bytes) := do
  let (authType, s1) ← pNat s
  let (hmacAuth, s2) ← pOptHmacAuth s1
  let (commandBytes, s3) ← pBytes s2
  return (⟨authType, hmacAuth, commandBytes⟩, s3)

/-- External service decode of a `Command` (`build.Command.decode`); a
parse failure or trailing bytes raise a fault carrying no partial value in
this concrete realisation. -/
def decodeCommand (s : Bytes) : DecodeResult Command :=
  match pCommand s with
  | some (c, []) => .ok c
  | _ => .fault none

/-- External service decode of a `Message` (`build.Message.decode`). -/
def decodeMessage (s : Bytes) : DecodeResult Message :=
  match pMessage s with
  | some (m, []) => .ok m
  | _ => .fault none

/-! ## The Kinetic instance

State of one `Kinetic` object: `_version` is set to `0x46` by the
constructor and never mutated; `_message` holds either the envelope built by
`setMessage` or the `Command` decoded by `parse` (protobufjs stores whichever
object was assigned last, so it is a sum); `_chunk`, `_hmac` and `_cmd` are
`undefined` (`none`) until first assigned. -/

inductive Protobuf where
  | msg (m : Message)
  | cmd (c : Command)
deriving DecidableEq

def pbToBuffer : Protobuf → Bytes
  | .msg m => encodeMessage m
  | .cmd c => encodeCommand c

structure KState where
  _version : Int
  _message : Option Protobuf
  _chunk : Option Bytes
  _hmac : Option Bytes
  _cmd : Option Message
deriving DecidableEq

def VERSION : Int := 0x46

def initKState : KState := ⟨VERSION, none, none, none, none⟩

/-- Error codes from `this.errors` used by the codec paths. -/
def SUCCESS : Int := 1
def HMAC_FAILURE : Int := 2
def VERSION_FAILURE : Int := 4
def INTERNAL_ERROR : Int := 5
def DATA_ERROR : Int := 11

/-- Operation codes from `this.op`. -/
def opPUT : Nat := 4
def opPUT_RESPONSE : Nat := 3
def opGET : Nat := 2
def opGET_RESPONSE : Nat := 1
def opNOOP : Nat := 30
def opNOOP_RESPONSE : Nat := 29
def opDELETE : Nat := 6
def opDELETE_RESPONSE : Nat := 5
def opSET_CLUSTER_VERSION : Nat := 22
def opSETUP_RESPONSE : Nat := 21
def opFLUSH : Nat := 32
def opFLUSH_RESPONSE : Nat := 31
def opGETLOG : Nat := 24
def opGETLOG_RESPONSE : Nat := 23

/-- Wire code of the `WRITETHROUGH` synchronization enum value (modelled
from the spec; the schema file carrying the numeric value is external). -/
def WRITETHROUGH : Nat := 1

def setProtobuf (st : KState) (pb : Protobuf) : KState := { st with _message := some pb }

def setChunk (st : KState) (chunk : Option Bytes) : KState := { st with _chunk := chunk }

/-- The shared secret string `'asdfasdf'` as bytes. -/
def secret : Bytes := [97, 115, 100, 102, 97, 115, 100, 102]

/-- Modelled from the spec: the HMAC-SHA1 digest supplied by the external
crypto library, realised by a concrete deterministic keyed 20-byte digest
(the claims depend only on the digest being a function of key and input). -/
def hmacSha1 (key msg : Bytes) : Bytes :=
  let seed := key.foldl (fun a b => (a * 31 + b) % 256) 7
  let h := msg.foldl (fun a b => (a * 33 + b + 1) % 256) seed
  (List.range 20).map (fun i => (h + i * 17) % 256)

def setHMAC (st : KState) (integrity : Bytes) : KState :=
  { st with _hmac := some (hmacSha1 secret integrity) }

def getChunkSize (st : KState) : Int :=
  match st._chunk with
  | none => 0
  | some c => (c.length : Int)

/-- ByteBuffer field view extraction (`getSlice`): fields already carry
their bytes in this embedding. -/
def getSlice (b : Bytes) : Bytes := b

def diff (buf0 buf1 : Bytes) : Bool :=
  if buf0.length ≠ buf1.length then false
  else (List.range (buf0.length + 1)).all (fun i => buf0[i]? == buf1[i]?)

/-- Return value of `hmacIntegrity`: the JS function returns either an error
code or the boolean `true`. -/
inductive HmacRes where
  | code (n : Int)
  | isTrue
deriving DecidableEq

/-- Translation of `hmacIntegrity(hmac)`: the absence check inspects the
stored `_hmac` before it is overwritten by the recomputation; accessing
`_message` when it was never assigned throws. -/
def hmacIntegrity (st : KState) (hmac : Option Bytes) : Except Unit (KState × HmacRes) :=
  if hmac = none ∨ st._hmac = none then .ok (st, .code HMAC_FAILURE)
  else
    match st._message with
    | none => .error ()
    | some pb =>
      let buf := writeInt32BE4 (pbToBuffer pb).length
      let st' := setHMAC st (buf ++ pbToBuffer pb)
      if diff (hmac.getD []) (st'._hmac.getD []) = false then .ok (st', .code HMAC_FAILURE)
      else .ok (st', .isTrue)

/-- The envelope built by `setMessage` around a command. -/
def mkEnvelope (c : Command) : Message :=
  let cb := encodeCommand c
  { authType := 1
    hmacAuth := some ⟨1, some (hmacSha1 secret (writeInt32BE4 cb.length ++ cb))⟩
    commandBytes := cb }

/-- Translation of `setMessage(command)`: serializes the command, computes
the HMAC over the length-prefixed command bytes and stores the envelope as
the instance protobuf. -/
def setMessage (st : KState) (command : Command) : KState :=
  let cb := encodeCommand command
  let buf := writeInt32BE4 cb.length
  let st1 := setHMAC { st with _message := some (.cmd command) } (buf ++ cb)
  setProtobuf st1 (.msg { authType := 1
                          hmacAuth := some { identity := 1, hmac := st1._hmac }
                          commandBytes := cb })

/-! ## Builders

Request builders take `connectionID` as an argument, standing for the
`Date.now()` timestamp the source draws (its sole non-deterministic input).
Response builders read `header.sequence` of the previously decoded command;
when `_message` is absent or holds an envelope instead of a command, the
property access chain throws. -/

def put (st : KState) (key : Bytes) (incrementTCP : Nat) (dbVersion newVersion : Bytes)
    (clusterVersion : Nat) (connectionID : Nat) : KState :=
  setMessage st
    { header := ⟨opPUT, connectionID, incrementTCP, clusterVersion, 0⟩
      body := { emptyBody with keyValue := ⟨key, dbVersion, newVersion, WRITETHROUGH⟩ }
      status := emptyStatus }

def getK (st : KState) (key : Bytes) (incrementTCP : Nat) (clusterVersion : Nat)
    (connectionID : Nat) : KState :=
  setMessage st
    { header := ⟨opGET, connectionID, incrementTCP, clusterVersion, 0⟩
      body := { emptyBody with keyValue := { emptyKeyValue with key := key } }
      status := emptyStatus }

def deleteK (st : KState) (key : Bytes) (incrementTCP : Nat) (clusterVersion : Nat)
    (dbVersion : Bytes) (connectionID : Nat) : KState :=
  setMessage st
    { header := ⟨opDELETE, connectionID, incrementTCP, clusterVersion, 0⟩
      body := { emptyBody with
                  keyValue := { emptyKeyValue with
                                  key := key, dbVersion := dbVersion,
                                  synchronization := WRITETHROUGH } }
      status := emptyStatus }

def noOp (st : KState) (incrementTCP : Nat) (clusterVersion : Nat)
    (connectionID : Nat) : KState :=
  setMessage st
    { header := ⟨opNOOP, connectionID, incrementTCP, clusterVersion, 0⟩
      body := emptyBody
      status := emptyStatus }

def flush (st : KState) (incrementTCP : Nat) (clusterVersion : Nat)
    (connectionID : Nat) : KState :=
  setMessage st
    { header := ⟨opFLUSH, connectionID, incrementTCP, clusterVersion, 0⟩
      body := emptyBody
      status := emptyStatus }

def setClusterVersion (st : KState) (incrementTCP : Nat) (clusterVersion : Nat)
    (oldClusterVersion : Nat) (connectionID : Nat) : KState :=
  setMessage st
    { header := ⟨opSET_CLUSTER_VERSION, connectionID, incrementTCP, oldClusterVersion, 0⟩
      body := { emptyBody with setup := ⟨clusterVersion⟩ }
      status := emptyStatus }

def getLog (st : KState) (incrementTCP : Nat) (types : List Nat) (clusterVersion : Nat)
    (connectionID : Nat) : KState :=
  setMessage st
    { header := ⟨opGETLOG, connectionID, incrementTCP, clusterVersion, 0⟩
      body := { emptyBody with getLog := ⟨types, []⟩ }
      status := emptyStatus }

def putResponse (st : KState) (response : Int) (errorMessage : Bytes) :
    Except Unit KState :=
  match st._message with
  | some (.cmd c) =>
      .ok (setMessage st
        { header := { emptyHeader with messageType := opPUT_RESPONSE,
                                       ackSequence := c.header.sequence }
          body := emptyBody
          status := ⟨response, errorMessage⟩ })
  | _ => .error ()

def getResponse (st : KState) (response : Int) (errorMessage : Bytes)
    (dbVersion : Bytes) : Except Unit KState :=
  match st._message with
  | some (.cmd c) =>
      .ok (setMessage st
        { header := { emptyHeader with messageType := opGET_RESPONSE,
                                       ackSequence := c.header.sequence }
          body := { emptyBody with
                      keyValue := { emptyKeyValue with
                                      key := c.body.keyValue.key,
                                      dbVersion := dbVersion } }
          status := ⟨response, errorMessage⟩ })
  | _ => .error ()

def deleteResponse (st : KState) (response : Int) (errorMessage : Bytes) :
    Except Unit KState :=
  match st._message with
  | some (.cmd c) =>
      .ok (setMessage st
        { header := { emptyHeader with messageType := opDELETE_RESPONSE,
                                       ackSequence := c.header.sequence }
          body := emptyBody
          status := ⟨response, errorMessage⟩ })
  | _ => .error ()

def noOpResponse (st : KState) (response : Int) (errorMessage : Bytes) :
    Except Unit KState :=
  match st._message with
  | some (.cmd c) =>
      .ok (setMessage st
        { header := { emptyHeader with messageType := opNOOP_RESPONSE,
                                       ackSequence := c.header.sequence }
          body := emptyBody
          status := ⟨response, errorMessage⟩ })
  | _ => .error ()

def flushResponse (st : KState) (response : Int) (errorMessage : Bytes) :
    Except Unit KState :=
  match st._message with
  | some (.cmd c) =>
      .ok (setMessage st
        { header := { emptyHeader with messageType := opFLUSH_RESPONSE,
                                       ackSequence := c.header.sequence }
          body := emptyBody
          status := ⟨response, errorMessage⟩ })
  | _ => .error ()

def setupResponse (st : KState) (response : Int) (errorMessage : Bytes) :
    Except Unit KState :=
  match st._message with
  | some (.cmd c) =>
      .ok (setMessage st
        { header := { emptyHeader with messageType := opSETUP_RESPONSE,
                                       ackSequence := c.header.sequence }
          body := emptyBody
          status := ⟨response, errorMessage⟩ })
  | _ => .error ()

def getLogResponse (st : KState) (response : Int) (errorMessage : Bytes)
    (responseLogs : GetLogBody) : Except Unit KState :=
  match st._message with
  | some (.cmd c) =>
      .ok (setMessage st
        { header := { emptyHeader with messageType := opGETLOG_RESPONSE,
                                       ackSequence := c.header.sequence }
          body := { emptyBody with getLog := responseLogs }
          status := ⟨response, errorMessage⟩ })
  | _ => .error ()

/-! ## Framing -/

/-- Translation of `send(sock)`: the bytes written to the socket are
returned.  Accessing `_message` when absent throws, as does
`writeInt32BE` on a length of `2^31` or more, or `writeInt8` on a version
outside the signed byte range. -/
def send (st : KState) : Except Unit Bytes :=
  match st._message with
  | none => .error ()
  | some pb =>
    let body := pbToBuffer pb
    if st._version < -128 ∨ 127 < st._version then .error ()
    else if (2 ^ 31 : Int) ≤ body.length ∨ (2 ^ 31 : Int) ≤ getChunkSize st then .error ()
    else
      let pduHeader := (st._version.emod 256).toNat ::
        (writeInt32BE4 body.length ++ writeInt32BE4 (getChunkSize st).toNat)
      match st._chunk with
      | some c => .ok (pduHeader ++ body ++ c)
      | none => .ok (pduHeader ++ body)

/-- The length and integrity checks of `parse` run after the chunk has been
stored: compare the stored chunk's size against the declared length, then
run the integrity check when the envelope is HMAC-authenticated.  Property
access on an absent `_cmd` or an absent `hmacAuth`/`hmac` field throws. -/
def parseCheck (st1 : KState) (chunkLen : Int) : Except Unit (KState × Int) :=
  if getChunkSize st1 ≠ chunkLen then .ok (st1, DATA_ERROR)
  else
    match st1._cmd with
    | none => .error ()
    | some m =>
      if m.authType = 1 then
        match m.hmacAuth with
        | none => .error ()
        | some ha =>
          match ha.hmac with
          | none => .error ()
          | some d =>
            match hmacIntegrity st1 (some (getSlice d)) with
            | .error e => .error e
            | .ok (st2, r) =>
              if r ≠ .isTrue then .ok (st2, HMAC_FAILURE) else .ok (st2, SUCCESS)
      else .ok (st1, SUCCESS)

/-- The validation stages of `parse` following the decode `try` block:
store the sliced chunk, then run the length and integrity checks. -/
def parseTail (st : KState) (data : Bytes) (pbMsgLen chunkLen : Int) :
    Except Unit (KState × Int) :=
  parseCheck
    (setChunk st (some (bufSlice data (pbMsgLen + 9) (chunkLen + pbMsgLen + 9))))
    chunkLen

/-- Translation of `parse(data)` parametric in the external decode service:
read the fixed header (each read throwing on an undersized buffer), gate on
the version byte, decode envelope and command adopting a partially decoded
structure carried by a fault, then run the remaining validation stages. -/
def parseWith (decM : Bytes → DecodeResult Message) (decC : Bytes → DecodeResult Command)
    (st : KState) (data : Bytes) : Except Unit (KState × Int) :=
  match readInt8 data 0, readInt32BE data 1, readInt32BE data 5 with
  | some version, some pbMsgLen, some chunkLen =>
    if version ≠ st._version then .ok (st, VERSION_FAILURE)
    else
      match decM (bufSlice data 9 (9 + pbMsgLen)) with
      | .ok m =>
        (match decC m.commandBytes with
         | .ok c => parseTail (setProtobuf { st with _cmd := some m } (.cmd c)) data pbMsgLen chunkLen
         | .fault (some c) =>
             parseTail (setProtobuf { st with _cmd := some m } (.cmd c)) data pbMsgLen chunkLen
         | .fault none => .ok ({ st with _cmd := some m }, INTERNAL_ERROR))
      | .fault (some m) => parseTail (setProtobuf st (.msg m)) data pbMsgLen chunkLen
      | .fault none => .ok (st, INTERNAL_ERROR)
  | _, _, _ => .error ()

/-- `parse` with the concrete structured-encoding service. -/
def parse (st : KState) (data : Bytes) : Except Unit (KState × Int) :=
  parseWith decodeMessage decodeCommand st data

/-- Result code of a parse outcome, `none` when it threw. -/
def resCode (r : Except Unit (KState × Int)) : Option Int :=
  match r with
  | .ok p => some p.2
  | .error _ => none

/-- Result state of a parse outcome, `none` when it threw. -/
def resState (r : Except Unit (KState × Int)) : Option KState :=
  match r with
  | .ok p => some p.1
  | .error _ => none

/-! ## Round-trip lemmas for the structured encoding -/

theorem pNat_natUn (n : Nat) (r : Bytes) : pNat (natUn n ++ r) = some (n, r) := by
  induction n with
  | zero => rfl
  | succ n ih =>
      have h : natUn (n + 1) ++ r = 1 :: (natUn n ++ r) := by
        simp [natUn, List.replicate_succ]
      rw [h, pNat, ih]

theorem pBytes_enc (b r : Bytes) : pBytes (encBytes b ++ r) = some (b, r) := by
  have h : encBytes b ++ r = natUn b.length ++ (b ++ r) := by
    simp [encBytes]
  rw [h, pBytes, pNat_natUn]
  simp [List.take_left, List.drop_left, Nat.le_add_right]

theorem pInt_enc (i : Int) (r : Bytes) : pInt (encInt i ++ r) = some (i, r) := by
  by_cases h : i < 0
  · have he : encInt i ++ r = 1 :: (natUn (-i).toNat ++ r) := by
      simp [encInt, if_pos h]
    rw [he, pInt, pNat_natUn]
    simp only [Option.map_some']
    have : ((-i).toNat : Int) = -i := Int.toNat_of_nonneg (by omega)
    rw [this]
    simp
  · have he : encInt i ++ r = 0 :: (natUn i.toNat ++ r) := by
      simp [encInt, if_neg h]
    rw [he, pInt, pNat_natUn]
    simp only [Option.map_some']
    rw [Int.toNat_of_nonneg (by omega)]

theorem pOptBytes_enc (o : Option Bytes) (r : Bytes) :
    pOptBytes (encOptBytes o ++ r) = some (o, r) := by
  cases o with
  | none => rfl
  | some b =>
      have he : encOptBytes (some b) ++ r = 1 :: (encBytes b ++ r) := by
        simp [encOptBytes]
      rw [he, pOptBytes, pBytes_enc]
      rfl

theorem pNatSeq_enc (l : List Nat) (r : Bytes) :
    pNatSeq l.length (encNatSeq l ++ r) = some (l, r) := by
  induction l with
  | nil => rfl
  | cons x xs ih =>
      have he : encNatSeq (x :: xs) ++ r = natUn x ++ (encNatSeq xs ++ r) := by
        simp [encNatSeq]
      simp only [List.length_cons, he, pNatSeq, pNat_natUn, ih, Option.bind_eq_bind, Option.some_bind, Option.pure_def]

theorem pNatList_enc (l : List Nat) (r : Bytes) :
    pNatList (encNatList l ++ r) = some (l, r) := by
  have he : encNatList l ++ r = natUn l.length ++ (encNatSeq l ++ r) := by
    simp [encNatList]
  simp only [pNatList, he, pNat_natUn, pNatSeq_enc, Option.bind_eq_bind, Option.some_bind, Option.pure_def]

theorem pHeader_enc (h : Header) (r : Bytes) : pHeader (encHeader h ++ r) = some (h, r) := by
  have he : encHeader h ++ r = natUn h.messageType ++ (natUn h.connectionID ++
      (natUn h.sequence ++ (natUn h.clusterVersion ++ (natUn h.ackSequence ++ r)))) := by
    simp [encHeader]
  simp only [pHeader, he, pNat_natUn, Option.bind_eq_bind, Option.some_bind, Option.pure_def]

theorem pKeyValue_enc (kv : KeyValue) (r : Bytes) :
    pKeyValue (encKeyValue kv ++ r) = some (kv, r) := by
  have he : encKeyValue kv ++ r = encBytes kv.key ++ (encBytes kv.dbVersion ++
      (encBytes kv.newVersion ++ (natUn kv.synchronization ++ r))) := by
    simp [encKeyValue]
  simp only [pKeyValue, he, pBytes_enc, pNat_natUn, Option.bind_eq_bind, Option.some_bind, Option.pure_def]

theorem pGetLog_enc (g : GetLogBody) (r : Bytes) : pGetLog (encGetLog g ++ r) = some (g, r) := by
  have he : encGetLog g ++ r = encNatList g.types ++ (encBytes g.messages ++ r) := by
    simp [encGetLog]
  simp only [pGetLog, he, pNatList_enc, pBytes_enc, Option.bind_eq_bind, Option.some_bind, Option.pure_def]

theorem pSetup_enc (s : SetupBody) (r : Bytes) : pSetup (encSetup s ++ r) = some (s, r) := by
  simp only [pSetup, encSetup, pNat_natUn, Option.bind_eq_bind, Option.some_bind, Option.pure_def]

theorem pBody_enc (b : Body) (r : Bytes) : pBody (encBody b ++ r) = some (b, r) := by
  have he : encBody b ++ r = encKeyValue b.keyValue ++ (encGetLog b.getLog ++
      (encSetup b.setup ++ r)) := by
    simp [encBody]
  simp only [pBody, he, pKeyValue_enc, pGetLog_enc, pSetup_enc, Option.bind_eq_bind, Option.some_bind, Option.pure_def]

theorem pStatus_enc (s : Status) (r : Bytes) : pStatus (encStatus s ++ r) = some (s, r) := by
  have he : encStatus s ++ r = encInt s.code ++ (encBytes s.detailedMessage ++ r) := by
    simp [encStatus]
  simp only [pStatus, he, pInt_enc, pBytes_enc, Option.bind_eq_bind, Option.some_bind, Option.pure_def]

theorem pCommand_enc (c : Command) (r : Bytes) :
    pCommand (encodeCommand c ++ r) = some (c, r) := by
  have he : encodeCommand c ++ r = encHeader c.header ++ (encBody c.body ++
      (encStatus c.status ++ r)) := by
    simp [encodeCommand]
  simp only [pCommand, he, pHeader_enc, pBody_enc, pStatus_enc, Option.bind_eq_bind, Option.some_bind, Option.pure_def]

theorem pHmacAuth_enc (h : HmacAuth) (r : Bytes) :
    pHmacAuth (encHmacAuth h ++ r) = some (h, r) := by
  have he : encHmacAuth h ++ r = natUn h.identity ++ (encOptBytes h.hmac ++ r) := by
    simp [encHmacAuth]
  simp only [pHmacAuth, he, pNat_natUn, pOptBytes_enc, Option.bind_eq_bind, Option.some_bind, Option.pure_def]

theorem pOptHmacAuth_enc (o : Option HmacAuth) (r : Bytes) :
    pOptHmacAuth (encOptHmacAuth o ++ r) = some (o, r) := by
  cases o with
  | none => rfl
  | some h =>
      have he : encOptHmacAuth (some h) ++ r = 1 :: (encHmacAuth h ++ r) := by
        simp [encOptHmacAuth]
      rw [he, pOptHmacAuth, pHmacAuth_enc]
      rfl

theorem pMessage_enc (m : Message) (r : Bytes) :
    pMessage (encodeMessage m ++ r) = some (m, r) := by
  have he : encodeMessage m ++ r = natUn m.authType ++ (encOptHmacAuth m.hmacAuth ++
      (encBytes m.commandBytes ++ r)) := by
    simp [encodeMessage]
  simp only [pMessage, he, pNat_natUn, pOptHmacAuth_enc, pBytes_enc, Option.bind_eq_bind, Option.some_bind, Option.pure_def]

theorem decodeCommand_enc (c : Command) : decodeCommand (encodeCommand c) = .ok c := by
  have h : encodeCommand c = encodeCommand c ++ [] := by simp
  rw [decodeCommand, h, pCommand_enc]

theorem decodeMessage_enc (m : Message) : decodeMessage (encodeMessage m) = .ok m := by
  have h : encodeMessage m = encodeMessage m ++ [] := by simp
  rw [decodeMessage, h, pMessage_enc]

/-! ## Buffer primitive lemmas -/

theorem readInt32BE_at (p rest : Bytes) (n : Nat) (hn : n < 2 ^ 31) :
    readInt32BE (p ++ (writeInt32BE4 n ++ rest)) p.length = some ((n : Nat) : Int) := by
  have g : ∀ i : Nat, (p ++ (writeInt32BE4 n ++ rest))[p.length + i]? =
      (writeInt32BE4 n ++ rest)[i]? := by
    intro i
    rw [List.getElem?_append_right (Nat.le_add_right _ _)]
    congr 1
    omega
  have h0 := g 0
  have h1 := g 1
  have h2 := g 2
  have h3 := g 3
  simp only [Nat.add_zero] at h0
  rw [readInt32BE, h0, h1, h2, h3]
  simp only [writeInt32BE4, List.cons_append, List.getElem?_cons_zero,
    List.getElem?_cons_succ]
  have hv : (n / 2 ^ 24 % 256 % 256) * 2 ^ 24 + (n / 2 ^ 16 % 256 % 256) * 2 ^ 16 +
      (n / 2 ^ 8 % 256 % 256) * 2 ^ 8 + n % 256 % 256 = n := by omega
  simp only [hv]
  rw [if_pos hn]

theorem clampIndex_natCast (len i : Nat) :
    clampIndex (len : Int) (i : Int) = ((min i len : Nat) : Int) := by
  rw [clampIndex, if_neg (by omega)]
  omega

theorem bufSlice_natCast (data : Bytes) (s e : Nat) :
    bufSlice data (s : Int) (e : Int) = (data.take e).drop s := by
  simp only [bufSlice, clampIndex_natCast, Int.toNat_ofNat]
  have htake : data.take (min e data.length) = data.take e := by
    by_cases h : e ≤ data.length
    · rw [min_eq_left h]
    · rw [min_eq_right (by omega), List.take_length,
        List.take_of_length_le (by omega)]
  by_cases h : ((min e data.length : Nat) : Int) ≤ ((min s data.length : Nat) : Int)
  · rw [if_pos h]
    have hlen : (data.take e).length ≤ s := by
      rw [List.length_take]
      omega
    exact (List.drop_eq_nil_of_le hlen).symm
  · rw [if_neg h, htake]
    by_cases hs : s ≤ data.length
    · rw [min_eq_left hs]
    · rw [min_eq_right (by omega)]
      have h1 : (data.take e).drop data.length = [] :=
        List.drop_eq_nil_of_le (by rw [List.length_take]; omega)
      have h2 : (data.take e).drop s = [] :=
        List.drop_eq_nil_of_le (by rw [List.length_take]; omega)
      rw [h1, h2]

theorem bufSlice_pre (pre post : Bytes) (K : Nat) :
    bufSlice (pre ++ post) (pre.length : Int) ((pre.length : Int) + (K : Int)) =
      post.take K := by
  have hc : ((pre.length : Int) + (K : Int)) = ((pre.length + K : Nat) : Int) := by
    push_cast
    ring
  rw [hc, bufSlice_natCast]
  rw [List.take_append_eq_append_take, List.take_of_length_le (by omega),
    Nat.add_sub_cancel_left, List.drop_left]

theorem toSigned8_lt (b : Nat) (hb : b < 256) :
    toSigned8 b = if b < 128 then (b : Int) else (b : Int) - 256 := by
  rw [toSigned8]
  split <;> split <;> omega

theorem toSigned8_ne_70 (b : Nat) (hb : b < 256) (hne : b ≠ 70) : toSigned8 b ≠ 70 := by
  rw [toSigned8_lt b hb]
  split <;> omega

/-! ## Behaviour of `diff` -/

theorem diff_length_ne (buf0 buf1 : Bytes) (h : buf0.length ≠ buf1.length) :
    diff buf0 buf1 = false := by
  rw [diff, if_pos h]

theorem diff_eq_iff (buf0 buf1 : Bytes) (h : buf0.length = buf1.length) :
    diff buf0 buf1 = true ↔ ∀ i, i < buf0.length → buf0[i]? = buf1[i]? := by
  rw [diff, if_neg (by omega)]
  rw [List.all_eq_true]
  constructor
  · intro hall i hi
    have := hall i (by rw [List.mem_range]; omega)
    exact beq_iff_eq.mp this
  · intro hidx i hi
    rw [List.mem_range] at hi
    rw [beq_iff_eq]
    by_cases hlt : i < buf0.length
    · exact hidx i hlt
    · have h0 : buf0[i]? = none := by
        rw [List.getElem?_eq_none_iff]
        omega
      have h1 : buf1[i]? = none := by
        rw [List.getElem?_eq_none_iff]
        omega
      rw [h0, h1]

theorem diff_self (b : Bytes) : diff b b = true := by
  rw [diff_eq_iff b b rfl]
  intro i _
  rfl

/-! ## Frame lemmas

A well-formed frame header declaring envelope length `L` and chunk length
`K`, followed by arbitrary payload bytes. -/

def frameHdr (L K : Nat) : Bytes := 70 :: (writeInt32BE4 L ++ writeInt32BE4 K)

theorem frameHdr_length (L K : Nat) : (frameHdr L K).length = 9 := by
  simp [frameHdr, writeInt32BE4]

theorem readInt8_frame (L K : Nat) (t : Bytes) :
    readInt8 (frameHdr L K ++ t) 0 = some 70 := rfl

theorem readInt32BE_frame1 (L K : Nat) (t : Bytes) (hL : L < 2 ^ 31) :
    readInt32BE (frameHdr L K ++ t) 1 = some ((L : Nat) : Int) := by
  have h : frameHdr L K ++ t = [70] ++ (writeInt32BE4 L ++ (writeInt32BE4 K ++ t)) := by
    simp [frameHdr]
  rw [h]
  simpa using readInt32BE_at [70] (writeInt32BE4 K ++ t) L hL

theorem readInt32BE_frame5 (L K : Nat) (t : Bytes) (hK : K < 2 ^ 31) :
    readInt32BE (frameHdr L K ++ t) 5 = some ((K : Nat) : Int) := by
  have h : frameHdr L K ++ t = (70 :: writeInt32BE4 L) ++ (writeInt32BE4 K ++ t) := by
    simp [frameHdr]
  have hp : (70 :: writeInt32BE4 L).length = 5 := by simp [writeInt32BE4]
  have hr := readInt32BE_at (70 :: writeInt32BE4 L) t K hK
  rw [hp] at hr
  rw [h]
  exact hr

theorem bufSlice_frame_env (K : Nat) (env rest : Bytes) :
    bufSlice (frameHdr env.length K ++ (env ++ rest)) 9 (9 + (env.length : Int)) = env := by
  have hp : (frameHdr env.length K).length = 9 := frameHdr_length _ _
  rw [show ((9 : Int) + (env.length : Int)) =
      ((frameHdr env.length K).length : Int) + ((env.length : Nat) : Int) by
    rw [hp]; norm_num]
  rw [show (9 : Int) = ((frameHdr env.length K).length : Int) by rw [hp]; norm_num]
  rw [bufSlice_pre]
  exact List.take_left env rest

theorem bufSlice_frame_chunk (K : Nat) (env rest : Bytes) :
    bufSlice (frameHdr env.length K ++ (env ++ rest)) ((env.length : Int) + 9)
      ((K : Int) + (env.length : Int) + 9) = rest.take K := by
  have hassoc : frameHdr env.length K ++ (env ++ rest) =
      (frameHdr env.length K ++ env) ++ rest := by
    simp [List.append_assoc]
  have hp : (frameHdr env.length K ++ env).length = 9 + env.length := by
    simp [frameHdr_length]
  rw [hassoc]
  rw [show ((K : Int) + (env.length : Int) + 9) =
      (((frameHdr env.length K ++ env).length : Nat) : Int) + (K : Int) by
    rw [hp]; push_cast; ring]
  rw [show ((env.length : Int) + 9) =
      (((frameHdr env.length K ++ env).length : Nat) : Int) by
    rw [hp]; push_cast; ring]
  exact bufSlice_pre _ _ _

/-- Computation of `parseWith` on a frame with a correct version byte and
well-formed length fields: the header reads succeed, the version gate
passes, the envelope region decodes, and the remaining stages run on the
declared chunk slice. -/
theorem parseWith_frame (decM : Bytes → DecodeResult Message)
    (decC : Bytes → DecodeResult Command) (st : KState) (env rest : Bytes) (K : Nat)
    (hL : env.length < 2 ^ 31) (hK : K < 2 ^ 31) (hv : st._version = 70) :
    parseWith decM decC st (frameHdr env.length K ++ (env ++ rest)) =
      (match decM env with
       | .ok m =>
         (match decC m.commandBytes with
          | .ok c =>
              parseCheck
                (setChunk (setProtobuf { st with _cmd := some m } (.cmd c))
                  (some (rest.take K))) (K : Int)
          | .fault (some c) =>
              parseCheck
                (setChunk (setProtobuf { st with _cmd := some m } (.cmd c))
                  (some (rest.take K))) (K : Int)
          | .fault none => .ok ({ st with _cmd := some m }, INTERNAL_ERROR))
       | .fault (some m) =>
           parseCheck (setChunk (setProtobuf st (.msg m)) (some (rest.take K))) (K : Int)
       | .fault none => .ok (st, INTERNAL_ERROR)) := by
  rw [parseWith, readInt8_frame, readInt32BE_frame1 _ _ _ hL, readInt32BE_frame5 _ _ _ hK]
  rw [hv]
  simp only [ne_eq, not_true_eq_false, if_neg, ite_false, if_false]
  rw [bufSlice_frame_env]
  simp only [parseTail]
  rw [bufSlice_frame_chunk]

/-! ## State helpers -/

theorem setMessage_def (st : KState) (c : Command) :
    setMessage st c =
      { st with
          _message := some (.msg (mkEnvelope c)),
          _hmac := some (hmacSha1 secret
            (writeInt32BE4 (encodeCommand c).length ++ encodeCommand c)) } := rfl

theorem getChunkSize_getD (st : KState) :
    getChunkSize st = (((st._chunk.getD []).length : Nat) : Int) := by
  cases h : st._chunk <;> simp [getChunkSize, h]

/-- The bytes `send` emits always have the frame-header shape: version byte,
big-endian envelope length, big-endian chunk length, envelope bytes, chunk
bytes. -/
theorem send_frame (st : KState) (pb : Protobuf) (hm : st._message = some pb)
    (hv : st._version = 70) (hbody : (pbToBuffer pb).length < 2 ^ 31)
    (hchunk : (st._chunk.getD []).length < 2 ^ 31) :
    send st = .ok (frameHdr (pbToBuffer pb).length (st._chunk.getD []).length ++
      (pbToBuffer pb ++ st._chunk.getD [])) := by
  have hb70 : (((70 : Int)).emod 256).toNat = 70 := by decide
  rw [send, hm]
  simp only []
  rw [if_neg (by rw [hv]; omega)]
  rw [if_neg (by rw [getChunkSize_getD]; push_cast; omega)]
  rw [hv, hb70, getChunkSize_getD]
  rw [Int.toNat_natCast]
  cases hc : st._chunk with
  | none => simp [frameHdr, hc]
  | some ch => simp [frameHdr, hc]

/-- The version gate: any frame of header size whose first byte is not the
protocol version returns `VERSION_FAILURE` with the state untouched, before
any decode runs. -/
theorem parseWith_version_mismatch (decM : Bytes → DecodeResult Message)
    (decC : Bytes → DecodeResult Command) (st : KState) (data : Bytes) (b : Nat)
    (hb : data[0]? = some b) (hb256 : b < 256) (hne : b ≠ 70) (hv : st._version = 70)
    (hlen : 9 ≤ data.length) :
    parseWith decM decC st data = .ok (st, VERSION_FAILURE) := by
  obtain ⟨v1, hv1⟩ : ∃ v, readInt32BE data 1 = some v := by
    rw [readInt32BE]
    rw [List.getElem?_eq_getElem (by omega), List.getElem?_eq_getElem (by omega),
      List.getElem?_eq_getElem (by omega), List.getElem?_eq_getElem (by omega)]
    exact ⟨_, rfl⟩
  obtain ⟨v5, hv5⟩ : ∃ v, readInt32BE data 5 = some v := by
    rw [readInt32BE]
    rw [List.getElem?_eq_getElem (by omega), List.getElem?_eq_getElem (by omega),
      List.getElem?_eq_getElem (by omega), List.getElem?_eq_getElem (by omega)]
    exact ⟨_, rfl⟩
  have h8 : readInt8 data 0 = some (toSigned8 b) := by rw [readInt8, hb]
  have hcond : toSigned8 b ≠ (70 : Int) := toSigned8_ne_70 b hb256 hne
  rw [parseWith, h8, hv1, hv5, hv]
  simp [hcond]

/-- Every normal return of the length/integrity stages carries one of the
codes `DATA_ERROR`, `HMAC_FAILURE`, `SUCCESS`. -/
theorem parseCheck_codes (st1 : KState) (K : Int) (st' : KState) (r : Int)
    (h : parseCheck st1 K = .ok (st', r)) :
    r = DATA_ERROR ∨ r = HMAC_FAILURE ∨ r = SUCCESS := by
  rw [parseCheck] at h
  split at h
  · simp only [Except.ok.injEq, Prod.mk.injEq] at h
    exact Or.inl h.2.symm
  · split at h
    · exact absurd h (by simp)
    · rename_i m
      split at h
      · split at h
        · exact absurd h (by simp)
        · rename_i ha
          split at h
          · exact absurd h (by simp)
          · rename_i d
            split at h
            · exact absurd h (by simp)
            · rename_i st2 r2 heq
              split at h
              · simp only [Except.ok.injEq, Prod.mk.injEq] at h
                exact Or.inr (Or.inl h.2.symm)
              · simp only [Except.ok.injEq, Prod.mk.injEq] at h
                exact Or.inr (Or.inr h.2.symm)
      · simp only [Except.ok.injEq, Prod.mk.injEq] at h
        exact Or.inr (Or.inr h.2.symm)

/-- Every normal return of `parseWith` carries one of the five codec
codes. -/
theorem parseWith_codes (decM : Bytes → DecodeResult Message)
    (decC : Bytes → DecodeResult Command) (st : KState) (data : Bytes)
    (st' : KState) (r : Int) (h : parseWith decM decC st data = .ok (st', r)) :
    r = SUCCESS ∨ r = HMAC_FAILURE ∨ r = VERSION_FAILURE ∨ r = INTERNAL_ERROR ∨
      r = DATA_ERROR := by
  rw [parseWith] at h
  split at h
  · split at h
    · simp only [Except.ok.injEq, Prod.mk.injEq] at h
      exact Or.inr (Or.inr (Or.inl h.2.symm))
    · split at h
      · split at h
        · rcases parseCheck_codes _ _ _ _ h with h1 | h1 | h1
          · exact Or.inr (Or.inr (Or.inr (Or.inr h1)))
          · exact Or.inr (Or.inl h1)
          · exact Or.inl h1
        · rcases parseCheck_codes _ _ _ _ h with h1 | h1 | h1
          · exact Or.inr (Or.inr (Or.inr (Or.inr h1)))
          · exact Or.inr (Or.inl h1)
          · exact Or.inl h1
        · simp only [Except.ok.injEq, Prod.mk.injEq] at h
          exact Or.inr (Or.inr (Or.inr (Or.inl h.2.symm)))
      · rcases parseCheck_codes _ _ _ _ h with h1 | h1 | h1
        · exact Or.inr (Or.inr (Or.inr (Or.inr h1)))
        · exact Or.inr (Or.inl h1)
        · exact Or.inl h1
      · simp only [Except.ok.injEq, Prod.mk.injEq] at h
        exact Or.inr (Or.inr (Or.inr (Or.inl h.2.symm)))
  · exact absurd h (by simp)

/-! ## Concrete demonstration values -/

/-- A command with every field at its default. -/
def demoCmd : Command := ⟨emptyHeader, emptyBody, emptyStatus⟩

/-- Envelope bytes for `demoCmd`. -/
def demoEnv : Bytes := encodeMessage (mkEnvelope demoCmd)

/-- Instance state after building `demoCmd`. -/
def demoSt : KState := setMessage initKState demoCmd

/-- A well-formed frame carrying `demoCmd` and no chunk. -/
def demoFrame : Bytes := frameHdr demoEnv.length 0 ++ demoEnv

/-- A frame declaring one chunk byte but carrying none. -/
def demoFrameK1 : Bytes := frameHdr demoEnv.length 1 ++ demoEnv

/-- A decoded request with sequence 5 as left behind by `parse`. -/
def demoReq : Command := ⟨⟨opPUT, 0, 5, 0, 0⟩, emptyBody, emptyStatus⟩

/-- Instance state holding the decoded request `demoReq`. -/
def stResp : KState := ⟨VERSION, some (.cmd demoReq), none, none, none⟩

/-- A partially decoded envelope, carried by a decode fault. -/
def demoPartialMsg : Message := ⟨0, none, []⟩

/-- Decode service whose envelope decode always faults carrying a partial
structure. -/
def decMFaultSome : Bytes → DecodeResult Message := fun _ => .fault (some demoPartialMsg)

/-- Decode service whose envelope decode always faults carrying nothing. -/
def decMFaultNone : Bytes → DecodeResult Message := fun _ => .fault none

/-- A nine-byte buffer with a correct version byte and zero lengths. -/
def hdrOnly : Bytes := 70 :: List.replicate 8 0

/-- A nine-byte buffer with a wrong version byte. -/
def badVersionHdr : Bytes := 71 :: List.replicate 8 0

/-! ## Claims -/

/-- C3: for every input buffer of at least the fixed header size whose first
byte differs from the supported protocol version `0x46`, `parse` returns
`VERSION_FAILURE` regardless of all remaining bytes, and before the decode,
chunk-length and integrity checks run: the result does not depend on the
decode services and the instance state is untouched. -/
theorem C3_version_gate (decM : Bytes → DecodeResult Message)
    (decC : Bytes → DecodeResult Command) (st : KState) (data : Bytes) (b : Nat)
    (hb : data[0]? = some b) (hb256 : b < 256) (hne : b ≠ 70) (hv : st._version = 70)
    (hlen : 9 ≤ data.length) :
    parseWith decM decC st data = .ok (st, VERSION_FAILURE) :=
  parseWith_version_mismatch decM decC st data b hb hb256 hne hv hlen

/-- Witness for C3 at a concrete frame with version byte `0x47`. -/
theorem C3_version_gate_witness :
    parseWith decodeMessage decodeCommand initKState badVersionHdr =
      .ok (initKState, VERSION_FAILURE) :=
  C3_version_gate decodeMessage decodeCommand initKState badVersionHdr 71 rfl
    (by decide) (by decide) rfl (by decide)

/-- C10: on a buffer of at least 9 bytes with a wrong version byte, `parse`
returns `VERSION_FAILURE` leaving the stored protobuf message, chunk and
HMAC exactly as they were; no such preservation holds on the `DATA_ERROR`
path (which stores the sliced chunk first) nor on the `HMAC_FAILURE` path
(which stores the decoded message first), witnessed on concrete frames. -/
theorem C10_version_failure_preserves_state :
    (∀ (st : KState) (data : Bytes) (b : Nat), data[0]? = some b → b < 256 → b ≠ 70 →
      st._version = 70 → 9 ≤ data.length →
      ∃ st', parse st data = .ok (st', VERSION_FAILURE) ∧ st'._message = st._message ∧
        st'._chunk = st._chunk ∧ st'._hmac = st._hmac) ∧
    (resCode (parse demoSt demoFrameK1) = some DATA_ERROR ∧
      (resState (parse demoSt demoFrameK1)).map KState._chunk = some (some []) ∧
      demoSt._chunk = none) ∧
    (resCode (parse initKState demoFrame) = some HMAC_FAILURE ∧
      (resState (parse initKState demoFrame)).map KState._message =
        some (some (.cmd demoCmd)) ∧ initKState._message = none) := by
  refine ⟨fun st data b hb hb256 hne hv hlen => ?_, by decide, by decide⟩
  exact ⟨st, parseWith_version_mismatch decodeMessage decodeCommand st data b hb hb256
    hne hv hlen, rfl, rfl, rfl⟩

/-- Witness for C10 at the concrete bad-version frame. -/
theorem C10_version_failure_preserves_state_witness :
    ∃ st', parse initKState badVersionHdr = .ok (st', VERSION_FAILURE) ∧
      st'._message = initKState._message ∧ st'._chunk = initKState._chunk ∧
      st'._hmac = initKState._hmac :=
  C10_version_failure_preserves_state.1 initKState badVersionHdr 71 rfl (by decide)
    (by decide) rfl (by decide)

/-- C6: the byte comparison `diff` returns `false` on buffers of different
lengths; on equal-length buffers it returns `true` exactly when the buffers
agree at every index within their length (the loop's extra final iteration
compares two out-of-range reads, which are equal); it returns `true` on
byte-identical buffers. -/
theorem C6_diff_bytewise (buf0 buf1 : Bytes) :
    (buf0.length ≠ buf1.length → diff buf0 buf1 = false) ∧
    (buf0.length = buf1.length →
      (diff buf0 buf1 = true ↔ ∀ i, i < buf0.length → buf0[i]? = buf1[i]?)) ∧
    diff buf0 buf0 = true :=
  ⟨diff_length_ne buf0 buf1, diff_eq_iff buf0 buf1, diff_self buf0⟩

/-- Witness for C6: length mismatch, identical buffers, and a single-byte
difference. -/
theorem C6_diff_bytewise_witness :
    diff [1, 2] [1, 2, 3] = false ∧ diff [9, 9] [9, 9] = true ∧
      diff [1, 2, 3] [1, 2, 4] ≠ true :=
  ⟨(C6_diff_bytewise [1, 2] [1, 2, 3]).1 (by decide),
   (C6_diff_bytewise [9, 9] [9, 9]).2.2,
   fun h => absurd (((C6_diff_bytewise [1, 2, 3] [1, 2, 4]).2.1 (by decide)).mp h)
     (by decide)⟩

/-- C8: when the envelope or command decode faults but carries a partially
populated structure, `parse` adopts it and continues with the remaining
validation stages; when the fault carries nothing, `parse` returns
`INTERNAL_ERROR`. -/
theorem C8_partial_decode (decM : Bytes → DecodeResult Message)
    (decC : Bytes → DecodeResult Command) (st : KState) (data : Bytes) (v L K : Int)
    (h8 : readInt8 data 0 = some v) (h1 : readInt32BE data 1 = some L)
    (h5 : readInt32BE data 5 = some K) (hv : v = st._version) :
    (∀ m, decM (bufSlice data 9 (9 + L)) = .fault (some m) →
        parseWith decM decC st data = parseTail (setProtobuf st (.msg m)) data L K) ∧
    (∀ m c, decM (bufSlice data 9 (9 + L)) = .ok m →
        decC m.commandBytes = .fault (some c) →
        parseWith decM decC st data =
          parseTail (setProtobuf { st with _cmd := some m } (.cmd c)) data L K) ∧
    (decM (bufSlice data 9 (9 + L)) = .fault none →
        parseWith decM decC st data = .ok (st, INTERNAL_ERROR)) ∧
    (∀ m, decM (bufSlice data 9 (9 + L)) = .ok m → decC m.commandBytes = .fault none →
        parseWith decM decC st data = .ok ({ st with _cmd := some m }, INTERNAL_ERROR)) := by
  refine ⟨fun m hm => ?_, fun m c hm hc => ?_, fun hm => ?_, fun m hm hc => ?_⟩
  · simp [parseWith, h8, h1, h5, ← hv, hm]
  · simp [parseWith, h8, h1, h5, ← hv, hm, hc]
  · simp [parseWith, h8, h1, h5, ← hv, hm]
  · simp [parseWith, h8, h1, h5, ← hv, hm, hc]

/-- Witness for C8: a fault-with-partial envelope decode continues into the
remaining stages and a fault-with-nothing decode yields `INTERNAL_ERROR`,
on a concrete nine-byte frame. -/
theorem C8_partial_decode_witness :
    parseWith decMFaultSome decodeCommand initKState hdrOnly =
      parseTail (setProtobuf initKState (.msg demoPartialMsg)) hdrOnly 0 0 ∧
    parseWith decMFaultNone decodeCommand initKState hdrOnly =
      .ok (initKState, INTERNAL_ERROR) :=
  ⟨(C8_partial_decode decMFaultSome decodeCommand initKState hdrOnly 70 0 0 rfl rfl rfl
      (by decide)).1 demoPartialMsg rfl,
   (C8_partial_decode decMFaultNone decodeCommand initKState hdrOnly 70 0 0 rfl rfl rfl
      (by decide)).2.2.1 rfl⟩

/-- C5 (amended): `parse` throws on every buffer shorter than the 9-byte
fixed header, and whenever it returns normally the result code is exactly
one of `SUCCESS`, `HMAC_FAILURE`, `VERSION_FAILURE`, `INTERNAL_ERROR`,
`DATA_ERROR`. -/
theorem C5_parse_results (st : KState) (data : Bytes) :
    (data.length < 9 → parse st data = .error ()) ∧
    (∀ st' r, parse st data = .ok (st', r) →
      r = SUCCESS ∨ r = HMAC_FAILURE ∨ r = VERSION_FAILURE ∨ r = INTERNAL_ERROR ∨
        r = DATA_ERROR) := by
  constructor
  · intro hlen
    have h5 : readInt32BE data 5 = none := by
      rw [readInt32BE]
      have h8 : data[5 + 3]? = none := by
        rw [List.getElem?_eq_none_iff]
        omega
      rw [h8]
      cases data[5]? <;> cases data[5 + 1]? <;> cases data[5 + 2]? <;> rfl
    rw [parse, parseWith, h5]
    cases readInt8 data 0 <;> cases readInt32BE data 1 <;> rfl
  · intro st' r h
    exact parseWith_codes decodeMessage decodeCommand st data st' r h

/-- Counterexample to C5 as stated: on the empty buffer the header read
throws (a `RangeError` in Node), so `parse` does not terminate normally
with a result code. -/
theorem C5_parse_results_cex : parse initKState [] = Except.error () := rfl

/-- Witness for C5: the throw on a short buffer and the code classification
of a normal return, at concrete inputs. -/
theorem C5_parse_results_witness :
    parse initKState [] = Except.error () ∧
    (VERSION_FAILURE = SUCCESS ∨ VERSION_FAILURE = HMAC_FAILURE ∨
      VERSION_FAILURE = VERSION_FAILURE ∨ VERSION_FAILURE = INTERNAL_ERROR ∨
      VERSION_FAILURE = DATA_ERROR) :=
  ⟨(C5_parse_results initKState []).1 (by decide),
   (C5_parse_results initKState badVersionHdr).2 initKState VERSION_FAILURE
     (parseWith_version_mismatch decodeMessage decodeCommand initKState badVersionHdr 71
       rfl (by decide) (by decide) rfl (by decide))⟩

/-! ## The integrity stage on well-formed frames -/

/-- The digest `hmacIntegrity` recomputes over the length-prefixed command
bytes. -/
def recomputedFor (c : Command) : Bytes :=
  hmacSha1 secret (writeInt32BE4 (encodeCommand c).length ++ encodeCommand c)

theorem mkEnvelope_hmacAuth (c : Command) :
    (mkEnvelope c).hmacAuth = some ⟨1, some (recomputedFor c)⟩ := rfl

/-- On a frame whose envelope and command decode cleanly, `parse` reduces to
the length and integrity checks on the updated state. -/
theorem parse_wellformed (st : KState) (env rest : Bytes) (K : Nat) (m : Message)
    (c : Command) (hm : decodeMessage env = .ok m)
    (hc : decodeCommand m.commandBytes = .ok c) (hL : env.length < 2 ^ 31)
    (hK : K < 2 ^ 31) (hv : st._version = 70) :
    parse st (frameHdr env.length K ++ (env ++ rest)) =
      parseCheck
        (setChunk (setProtobuf { st with _cmd := some m } (.cmd c))
          (some (rest.take K))) (K : Int) := by
  rw [parse, parseWith_frame decodeMessage decodeCommand st env rest K hL hK hv]
  simp only [hm, hc]

/-- Outcome of the length and integrity checks when the chunk length
matches and the envelope carries an HMAC digest: the stored digest's
absence, or a digest mismatch, gives `HMAC_FAILURE`; a match gives
`SUCCESS`. -/
theorem parseCheck_hmac (st1 : KState) (K : Int) (m : Message) (c : Command) (i : Nat)
    (d : Bytes) (hch : getChunkSize st1 = K) (hcmd : st1._cmd = some m)
    (hauth : m.authType = 1) (hha : m.hmacAuth = some ⟨i, some d⟩)
    (hmsg : st1._message = some (.cmd c)) :
    (st1._hmac = none → parseCheck st1 K = .ok (st1, HMAC_FAILURE)) ∧
    (∀ h0, st1._hmac = some h0 → diff d (recomputedFor c) = false →
      parseCheck st1 K =
        .ok (setHMAC st1 (writeInt32BE4 (encodeCommand c).length ++ encodeCommand c),
          HMAC_FAILURE)) ∧
    (∀ h0, st1._hmac = some h0 → diff d (recomputedFor c) = true →
      parseCheck st1 K =
        .ok (setHMAC st1 (writeInt32BE4 (encodeCommand c).length ++ encodeCommand c),
          SUCCESS)) := by
  refine ⟨fun hno => ?_, fun h0 hsome hdiff => ?_, fun h0 hsome hdiff => ?_⟩
  · rw [parseCheck, if_neg (by rw [hch]; simp), hcmd]
    simp only [if_pos hauth, hha]
    rw [hmacIntegrity, if_pos (Or.inr hno)]
    rfl
  · rw [parseCheck, if_neg (by rw [hch]; simp), hcmd]
    simp only [if_pos hauth, hha]
    rw [hmacIntegrity, if_neg (by simp [hsome]), hmsg]
    simp only [pbToBuffer, getSlice, setHMAC, Option.getD_some]
    rw [if_pos (by simpa [recomputedFor] using hdiff)]
    rfl
  · rw [parseCheck, if_neg (by rw [hch]; simp), hcmd]
    simp only [if_pos hauth, hha]
    rw [hmacIntegrity, if_neg (by simp [hsome]), hmsg]
    simp only [pbToBuffer, getSlice, setHMAC, Option.getD_some]
    rw [if_neg (by simpa [recomputedFor] using hdiff)]
    rfl

/-- When the stored chunk's size equals the declared length, the
`DATA_ERROR` branch of the length and integrity checks cannot fire: every
normal return carries `HMAC_FAILURE` or `SUCCESS`. -/
theorem parseCheck_no_data_error (st1 : KState) (K : Int) (hch : getChunkSize st1 = K)
    (st' : KState) (r : Int) (h : parseCheck st1 K = .ok (st', r)) : r ≠ DATA_ERROR := by
  rw [parseCheck, if_neg (by rw [hch]; simp)] at h
  split at h
  · exact absurd h (by simp)
  · split at h
    · split at h
      · exact absurd h (by simp)
      · split at h
        · exact absurd h (by simp)
        · split at h
          · exact absurd h (by simp)
          · split at h
            · simp only [Except.ok.injEq, Prod.mk.injEq] at h
              rw [← h.2]
              decide
            · simp only [Except.ok.injEq, Prod.mk.injEq] at h
              rw [← h.2]
              decide
    · simp only [Except.ok.injEq, Prod.mk.injEq] at h
      rw [← h.2]
      decide

/-- C4 (amended): for frames passing the version and decode stages, the
declared chunk length is compared against the length of the sliced chunk
region; the slice clamps at the end of the buffer, so the check fires
exactly when the declared length exceeds the number of trailing bytes:
when it does exceed them `parse` returns `DATA_ERROR`, and when it does
not, surplus trailing bytes beyond the declared length are ignored and no
normal return of `parse` carries `DATA_ERROR`. -/
theorem C4_chunk_length_gate (st : KState) (env rest : Bytes) (K : Nat) (m : Message)
    (c : Command) (hm : decodeMessage env = .ok m)
    (hc : decodeCommand m.commandBytes = .ok c) (hL : env.length < 2 ^ 31)
    (hK : K < 2 ^ 31) (hv : st._version = 70) :
    (rest.length < K →
      ∃ st', parse st (frameHdr env.length K ++ (env ++ rest)) = .ok (st', DATA_ERROR)) ∧
    (K ≤ rest.length → ∀ st' r,
      parse st (frameHdr env.length K ++ (env ++ rest)) = .ok (st', r) →
        r ≠ DATA_ERROR) := by
  constructor
  · intro hgt
    rw [parse_wellformed st env rest K m c hm hc hL hK hv]
    refine ⟨setChunk (setProtobuf { st with _cmd := some m } (.cmd c)) (some (rest.take K)),
      ?_⟩
    have hcond : getChunkSize
        (setChunk (setProtobuf { st with _cmd := some m } (.cmd c)) (some (rest.take K))) ≠
          (K : Int) := by
      have hlen : (rest.take K).length = rest.length := by
        rw [List.length_take]
        omega
      simp only [getChunkSize, setChunk, hlen]
      intro hcontra
      omega
    rw [parseCheck, if_pos hcond]
  · intro hle st' r h
    rw [parse_wellformed st env rest K m c hm hc hL hK hv] at h
    have hch : getChunkSize
        (setChunk (setProtobuf { st with _cmd := some m } (.cmd c)) (some (rest.take K))) =
          (K : Int) := by
      have hlen : (rest.take K).length = K := by
        rw [List.length_take]
        omega
      simp only [getChunkSize, setChunk, hlen]
    exact parseCheck_no_data_error _ _ hch st' r h

/-- Counterexample to C4 as stated: a frame with one surplus trailing byte
has a declared chunk length (0) different from the actual trailing byte
count (1), yet `parse` returns `SUCCESS`, not `DATA_ERROR`. -/
theorem C4_chunk_length_cex :
    resCode (parse demoSt (demoFrame ++ [7])) = some SUCCESS ∧
    readInt32BE (demoFrame ++ [7]) 5 = some 0 ∧
    (demoFrame ++ [7]).length = 9 + demoEnv.length + 1 :=
  ⟨by decide, by decide, by decide⟩

/-- Witness for C4: a frame declaring one chunk byte but carrying none
gives `DATA_ERROR`, and a frame declaring none but carrying one surplus
byte never returns `DATA_ERROR`. -/
theorem C4_chunk_length_gate_witness :
    (∃ st', parse demoSt (frameHdr demoEnv.length 1 ++ (demoEnv ++ [])) =
      .ok (st', DATA_ERROR)) ∧
    (∀ st' r, parse demoSt (frameHdr demoEnv.length 0 ++ (demoEnv ++ [7])) =
      .ok (st', r) → r ≠ DATA_ERROR) :=
  ⟨(C4_chunk_length_gate demoSt demoEnv [] 1 (mkEnvelope demoCmd) demoCmd
      (decodeMessage_enc (mkEnvelope demoCmd)) (decodeCommand_enc demoCmd)
      (by decide) (by decide) rfl).1 (by decide),
   (C4_chunk_length_gate demoSt demoEnv [7] 0 (mkEnvelope demoCmd) demoCmd
      (decodeMessage_enc (mkEnvelope demoCmd)) (decodeCommand_enc demoCmd)
      (by decide) (by decide) rfl).2 (by decide)⟩

/-- C9: `send` emits exactly the version byte `0x46` at offset 0, the
4-byte big-endian serialized-envelope length at offset 1, the 4-byte
big-endian chunk length at offset 5 (0 when no chunk is attached), the
envelope bytes and then the chunk bytes, with no padding; both declared
lengths equal the actual sizes of the regions that follow. -/
theorem C9_send_layout (st : KState) (pb : Protobuf) (hm : st._message = some pb)
    (hv : st._version = 70) (hbody : (pbToBuffer pb).length < 2 ^ 31)
    (hchunk : (st._chunk.getD []).length < 2 ^ 31) :
    send st = .ok (frameHdr (pbToBuffer pb).length (st._chunk.getD []).length ++
        (pbToBuffer pb ++ st._chunk.getD [])) ∧
    (frameHdr (pbToBuffer pb).length (st._chunk.getD []).length ++
        (pbToBuffer pb ++ st._chunk.getD []))[0]? = some 70 ∧
    readInt32BE (frameHdr (pbToBuffer pb).length (st._chunk.getD []).length ++
        (pbToBuffer pb ++ st._chunk.getD [])) 1 =
      some (((pbToBuffer pb).length : Nat) : Int) ∧
    readInt32BE (frameHdr (pbToBuffer pb).length (st._chunk.getD []).length ++
        (pbToBuffer pb ++ st._chunk.getD [])) 5 =
      some (((st._chunk.getD []).length : Nat) : Int) ∧
    (frameHdr (pbToBuffer pb).length (st._chunk.getD []).length ++
        (pbToBuffer pb ++ st._chunk.getD [])).length =
      9 + (pbToBuffer pb).length + (st._chunk.getD []).length := by
  refine ⟨send_frame st pb hm hv hbody hchunk, rfl,
    readInt32BE_frame1 _ _ _ hbody, readInt32BE_frame5 _ _ _ hchunk, ?_⟩
  simp only [List.length_append, frameHdr_length]
  omega

/-- Witness for C9 on the concrete built state carrying no chunk. -/
theorem C9_send_layout_witness :
    send demoSt = .ok (frameHdr (pbToBuffer (.msg (mkEnvelope demoCmd))).length
        (demoSt._chunk.getD []).length ++
      (pbToBuffer (.msg (mkEnvelope demoCmd)) ++ demoSt._chunk.getD [])) ∧
    (frameHdr (pbToBuffer (.msg (mkEnvelope demoCmd))).length
        (demoSt._chunk.getD []).length ++
      (pbToBuffer (.msg (mkEnvelope demoCmd)) ++ demoSt._chunk.getD []))[0]? = some 70 :=
  ⟨(C9_send_layout demoSt (.msg (mkEnvelope demoCmd)) rfl rfl (by decide) (by decide)).1,
   (C9_send_layout demoSt (.msg (mkEnvelope demoCmd)) rfl rfl (by decide) (by decide)).2.1⟩

/-- C2 (amended): on a frame passing the version, decode and chunk-length
stages whose envelope carries an HMAC digest, `parse` returns
`HMAC_FAILURE` exactly when the digest stored on the instance before the
call is absent or the digest recomputed with the shared secret over the
length-prefixed command bytes differs from the carried digest; when the
stored digest is present and the recomputation matches, `parse` returns
`SUCCESS`. -/
theorem C2_hmac_exactly (st : KState) (env rest : Bytes) (m : Message) (c : Command)
    (i : Nat) (d : Bytes) (hm : decodeMessage env = .ok m)
    (hc : decodeCommand m.commandBytes = .ok c) (hauth : m.authType = 1)
    (hha : m.hmacAuth = some ⟨i, some d⟩) (hL : env.length < 2 ^ 31)
    (hK : rest.length < 2 ^ 31) (hv : st._version = 70) :
    (st._hmac = none ∨ diff d (recomputedFor c) = false →
      resCode (parse st (frameHdr env.length rest.length ++ (env ++ rest))) =
        some HMAC_FAILURE) ∧
    (st._hmac ≠ none → diff d (recomputedFor c) = true →
      resCode (parse st (frameHdr env.length rest.length ++ (env ++ rest))) =
        some SUCCESS) := by
  have hparse := parse_wellformed st env rest rest.length m c hm hc hL hK hv
  have hfacts := parseCheck_hmac
    (setChunk (setProtobuf { st with _cmd := some m } (.cmd c))
      (some (rest.take rest.length)))
    (rest.length : Int) m c i d
    (by simp [getChunkSize, setChunk, List.take_length]) rfl hauth hha rfl
  constructor
  · rintro (hno | hdiff)
    · rw [hparse, hfacts.1 hno]
      rfl
    · cases hh : st._hmac with
      | none =>
          rw [hparse, hfacts.1 hh]
          rfl
      | some h0 =>
          rw [hparse, hfacts.2.1 h0 hh hdiff]
          rfl
  · intro hne hdiff
    cases hh : st._hmac with
    | none => exact absurd hh hne
    | some h0 =>
        rw [hparse, hfacts.2.2 h0 hh hdiff]
        rfl

/-- Counterexample to C2 as stated: a fresh instance (its stored digest
never assigned) parses a valid frame whose carried digest equals the
recomputed digest, yet `parse` returns `HMAC_FAILURE` — the absence check
inspects the previously stored digest, not the recomputed one. -/
theorem C2_hmac_exactly_cex :
    resCode (parse initKState demoFrame) = some HMAC_FAILURE ∧
    (mkEnvelope demoCmd).hmacAuth = some ⟨1, some (recomputedFor demoCmd)⟩ ∧
    diff (recomputedFor demoCmd) (recomputedFor demoCmd) = true ∧
    initKState._hmac = none :=
  ⟨by decide, rfl, by decide, rfl⟩

/-- Witness for C2 on the built instance, whose stored digest is present
and matches. -/
theorem C2_hmac_exactly_witness :
    resCode (parse demoSt (frameHdr demoEnv.length 0 ++ (demoEnv ++ []))) =
      some SUCCESS :=
  (C2_hmac_exactly demoSt demoEnv [] (mkEnvelope demoCmd) demoCmd 1
      (recomputedFor demoCmd) (decodeMessage_enc _) (decodeCommand_enc demoCmd) rfl rfl
      (by decide) (by decide) rfl).2 (by decide) (by decide)

/-- C1: for every command built through `setMessage` (the common core of all
builder operations) and every optional chunk, feeding the bytes emitted by
`send` back to `parse` on that instance returns `SUCCESS`, stores a decoded
command equal to the built one, and stores chunk bytes identical to the
attached ones. -/
theorem C1_send_parse_roundtrip (st : KState) (c : Command) (chunk : Option Bytes)
    (henv : (encodeMessage (mkEnvelope c)).length < 2 ^ 31)
    (hch : (chunk.getD []).length < 2 ^ 31) (hv : st._version = 70) :
    ∃ frame st',
      send (setChunk (setMessage st c) chunk) = .ok frame ∧
      parse (setChunk (setMessage st c) chunk) frame = .ok (st', SUCCESS) ∧
      st'._message = some (.cmd c) ∧ st'._chunk = some (chunk.getD []) := by
  have hsend : send (setChunk (setMessage st c) chunk) =
      .ok (frameHdr (encodeMessage (mkEnvelope c)).length (chunk.getD []).length ++
        (encodeMessage (mkEnvelope c) ++ chunk.getD [])) :=
    send_frame (setChunk (setMessage st c) chunk) (.msg (mkEnvelope c)) rfl hv henv hch
  have hparse := parse_wellformed (setChunk (setMessage st c) chunk)
    (encodeMessage (mkEnvelope c)) (chunk.getD []) (chunk.getD []).length
    (mkEnvelope c) c (decodeMessage_enc _) (decodeCommand_enc c) henv hch hv
  have hfacts := parseCheck_hmac
    (setChunk (setProtobuf { setChunk (setMessage st c) chunk with
        _cmd := some (mkEnvelope c) } (.cmd c))
      (some ((chunk.getD []).take (chunk.getD []).length)))
    ((chunk.getD []).length : Int) (mkEnvelope c) c 1 (recomputedFor c)
    (by simp [getChunkSize, setChunk, List.take_length]) rfl rfl
    (mkEnvelope_hmacAuth c) rfl
  have hsucc := hfacts.2.2 (recomputedFor c) rfl (diff_self _)
  refine ⟨_, _, hsend, hparse.trans hsucc, rfl, ?_⟩
  show some ((chunk.getD []).take (chunk.getD []).length) = some (chunk.getD [])
  rw [List.take_length]

/-- Witness for C1 on a concrete PUT-like command with a two-byte chunk. -/
theorem C1_send_parse_roundtrip_witness :
    ∃ frame st',
      send (setChunk (setMessage initKState demoCmd) (some [10, 20])) = .ok frame ∧
      parse (setChunk (setMessage initKState demoCmd) (some [10, 20])) frame =
        .ok (st', SUCCESS) ∧
      st'._message = some (.cmd demoCmd) ∧ st'._chunk = some [10, 20] :=
  C1_send_parse_roundtrip initKState demoCmd (some [10, 20]) (by decide) (by decide) rfl

/-- A response-builder result correlates with sequence `seq`: it returns
normally, its stored envelope's command bytes decode to a command whose
`ackSequence` is `seq`. -/
def builtAck (r : Except Unit KState) (seq : Nat) : Prop :=
  ∃ st' env rc, r = .ok st' ∧ st'._message = some (.msg env) ∧
    decodeCommand env.commandBytes = DecodeResult.ok rc ∧ rc.header.ackSequence = seq

theorem builtAck_mk (st : KState) (rc : Command) :
    builtAck (.ok (setMessage st rc)) rc.header.ackSequence :=
  ⟨setMessage st rc, mkEnvelope rc, rc, rfl, rfl, decodeCommand_enc rc, rfl⟩

/-- C7: every response builder invoked after a request has been decoded
builds a response whose `header.ackSequence` equals the decoded request's
`header.sequence`. -/
theorem C7_response_ack (st : KState) (c : Command) (h : st._message = some (.cmd c))
    (response : Int) (errorMessage dbVersion : Bytes) (logs : GetLogBody) :
    builtAck (putResponse st response errorMessage) c.header.sequence ∧
    builtAck (getResponse st response errorMessage dbVersion) c.header.sequence ∧
    builtAck (deleteResponse st response errorMessage) c.header.sequence ∧
    builtAck (noOpResponse st response errorMessage) c.header.sequence ∧
    builtAck (flushResponse st response errorMessage) c.header.sequence ∧
    builtAck (setupResponse st response errorMessage) c.header.sequence ∧
    builtAck (getLogResponse st response errorMessage logs) c.header.sequence := by
  refine ⟨?_, ?_, ?_, ?_, ?_, ?_, ?_⟩
  · simp only [putResponse, h]
    exact builtAck_mk st _
  · simp only [getResponse, h]
    exact builtAck_mk st _
  · simp only [deleteResponse, h]
    exact builtAck_mk st _
  · simp only [noOpResponse, h]
    exact builtAck_mk st _
  · simp only [flushResponse, h]
    exact builtAck_mk st _
  · simp only [setupResponse, h]
    exact builtAck_mk st _
  · simp only [getLogResponse, h]
    exact builtAck_mk st _

/-- Witness for C7 on a concrete decoded request with sequence 5. -/
theorem C7_response_ack_witness :
    builtAck (putResponse stResp 1 []) demoReq.header.sequence ∧
    builtAck (getResponse stResp 1 [] []) demoReq.header.sequence ∧
    builtAck (deleteResponse stResp 1 []) demoReq.header.sequence ∧
    builtAck (noOpResponse stResp 1 []) demoReq.header.sequence ∧
    builtAck (flushResponse stResp 1 []) demoReq.header.sequence ∧
    builtAck (setupResponse stResp 1 []) demoReq.header.sequence ∧
    builtAck (getLogResponse stResp 1 [] ⟨[], []⟩) demoReq.header.sequence :=
  C7_response_ack stResp demoReq rfl 1 [] [] ⟨[], []⟩

end Kinetic
